import Mathlib

/-!
Verification of the training-sample store, label codec, classifier trainer,
model catalog and inference decision engine of the hand-direction /
animal-detector repository.

The JavaScript source is embedded shallowly:
* numeric values computed exactly (thresholds, probabilities, timestamps)
  are modelled as rationals;
* quantities that go through transcendental functions (`Math.log2`,
  `Math.atan2`, `Math.sqrt`) are modelled as real numbers;
* the sentinel string `'NONE'` / the JS value `null`, both of which mean
  "no label / no decision", are modelled as `Option.none`;
* JS `Array.prototype.sort` (stable) is modelled by `List.insertionSort`,
  which is stable for the comparators used here.
-/

set_option maxHeartbeats 1000000

namespace HandAnimal

open Classical

/-- A training sample as pushed by `handleFileUpload` /
`captureTrainingSample`: a feature vector and a user label.  The
`imageDataUrl`/`timestamp` fields of the JS record play no role in any
claim and are omitted.  The entry type of the feature vector is a
parameter so that the same store can be instantiated with exact
rationals (for decidable witnesses) or with reals (for the geometric
feature extractor). -/
structure Sample (α : Type) where
  features : List α
  label : String
deriving DecidableEq

/-- `[...new Set(list)]`: the distinct elements of a list in
first-occurrence order, as a JS `Set` iterates them. -/
def jsSetDedup {α : Type} [DecidableEq α] : List α → List α
  | [] => []
  | a :: t => a :: jsSetDedup (t.filter (fun x => x ≠ a))
termination_by l => l.length
decreasing_by
  simp only [List.length_cons]
  exact Nat.lt_succ_of_le (List.length_filter_le _ _)

/-- `[...new Set(trainingData.map(sample => sample.label))].sort()` from
`trainModel` / `saveModel`: distinct labels of the store, sorted
lexicographically. -/
def deriveUniqueLabels {α : Type} (td : List (Sample α)) : List String :=
  List.insertionSort (· ≤ ·) (jsSetDedup (td.map (·.label)))

/-- `labelMap` built by `uniqueLabels.forEach((label, index) => labelMap[label] = index)`:
an association list sending the i-th unique label to `i`. -/
def labelMapPairs (labels : List String) : List (String × ℕ) :=
  labels.enum.map (fun p => (p.2, p.1))

/-- `labelCounts` built by
`trainingData.forEach(sample => labelCounts[sample.label] = (labelCounts[sample.label] || 0) + 1)`:
one key per distinct label (in first-occurrence order, as JS object keys),
counting the samples carrying it. -/
def labelCountsList {α : Type} (td : List (Sample α)) : List (String × ℕ) :=
  (jsSetDedup (td.map (·.label))).map (fun l => (l, (td.map (·.label)).count l))

/-! ### Model catalog (`saveModel`, quota-eviction retry path) -/

/-- The fields of a catalog entry (`modelInfo`) that the quota-eviction
logic reads: the storage key of the persisted artifact and the creation
timestamp (`createdAt`, modelled in milliseconds as a natural number —
`new Date(isoString)` recovers exactly the stored instant). -/
structure CatalogEntry where
  storageKey : String
  createdAt : ℕ
deriving DecidableEq

/-- `savedModels.sort((a, b) => new Date(b.createdAt) - new Date(a.createdAt))`:
stable sort, most recent first. -/
def sortByCreatedAtDesc (l : List CatalogEntry) : List CatalogEntry :=
  List.insertionSort (fun a b => b.createdAt ≤ a.createdAt) l

/-- The `QuotaExceededError` recovery block of `saveModel`: sort the full
catalog (which at that point already contains the new entry) by
`createdAt` descending, keep the 10 most recent, and request IndexedDB
deletion of every other entry's artifact.  Returns the catalog that is
re-written and the storage keys whose artifacts are deleted. -/
def quotaEvictionRetry (savedModels : List CatalogEntry) :
    List CatalogEntry × List String :=
  let sortedModels := sortByCreatedAtDesc savedModels
  let recentModels := sortedModels.take 10
  let modelsToDelete := sortedModels.drop 10
  (recentModels, modelsToDelete.map (·.storageKey))

/-- `saveModel` on the metadata-quota-failure path: the new entry is
pushed onto the loaded catalog (`savedModels.push(modelInfo)`) before
the failing write, so the eviction pass runs over `existing ++ [newE]`. -/
def putEntryQuotaPath (existing : List CatalogEntry) (newE : CatalogEntry) :
    List CatalogEntry × List String :=
  quotaEvictionRetry (existing ++ [newE])

/-! ### `saveModel` metadata record -/

/-- The metadata fields of the `modelInfo` record built by `saveModel`
that the invariant claims speak about (the `id`/`name`/`storageKey`/
`createdAt` fields are opaque strings/timestamps irrelevant here). -/
structure ModelInfo where
  trainingDataCount : ℕ
  trainedLabels : List String
  labelMap : List (String × ℕ)
  labelCounts : List (String × ℕ)
deriving DecidableEq

/-- `saveModel(model, modelName, trainingData, uniqueLabels = null, labelMap = null)`,
metadata part: when `uniqueLabels` / `labelMap` are not supplied they
are derived from `trainingData` exactly as `trainModel` derives them;
`labelCounts` is always recomputed from `trainingData`. -/
def mkModelInfo {α : Type} (td : List (Sample α))
    (uniqueLabelsArg : Option (List String))
    (labelMapArg : Option (List (String × ℕ))) : ModelInfo :=
  let uniqueLabels := uniqueLabelsArg.getD (deriveUniqueLabels td)
  let labelMap := labelMapArg.getD (labelMapPairs uniqueLabels)
  { trainingDataCount := td.length
    trainedLabels := uniqueLabels
    labelMap := labelMap
    labelCounts := labelCountsList td }

/-! ### Classifier trainer (`trainModel`) -/

inductive Activation where
  | relu
  | sigmoid
  | softmax
deriving DecidableEq

structure DenseLayer where
  units : ℕ
  activation : Activation
deriving DecidableEq

inductive LossKind where
  | binaryCrossentropy
  | categoricalCrossentropy
deriving DecidableEq

/-- The architecture / loss / target tensors chosen by `trainModel`.
`targets` models the rows of the `ys` tensor
(`tf.ones([n,1])` resp. `tf.oneHot(labels, numClasses)`). -/
structure TrainConfig where
  inputDim : ℕ
  layers : List DenseLayer
  loss : LossKind
  targets : List (List ℚ)
deriving DecidableEq

/-- A one-hot row of `tf.oneHot(tf.tensor1d(labels,'int32'), numClasses)`. -/
def oneHot (numClasses idx : ℕ) : List ℚ :=
  (List.range numClasses).map (fun j => if j = idx then 1 else 0)

/-- `trainModel` of `animal-detector.js`: derive the sorted unique
labels and the label map, then branch on `numClasses`; hidden layers
are 64→32 relu in both branches, the output layer is a single sigmoid
unit (binary cross-entropy, all-ones targets) for one class, and
`numClasses` softmax units (categorical cross-entropy, one-hot targets
through `labelMap[sample.label]`) otherwise. -/
def animalTrainConfig (td : List (Sample ℚ)) : TrainConfig :=
  let uniqueLabels := deriveUniqueLabels td
  let numClasses := uniqueLabels.length
  let labelMap := labelMapPairs uniqueLabels
  let labels := td.map (fun s => (labelMap.lookup s.label).getD 0)
  let inputDim := ((td.headD ⟨[], ""⟩).features).length
  if numClasses = 1 then
    { inputDim := inputDim
      layers := [⟨64, .relu⟩, ⟨32, .relu⟩, ⟨1, .sigmoid⟩]
      loss := .binaryCrossentropy
      targets := td.map (fun _ => [1]) }
  else
    { inputDim := inputDim
      layers := [⟨64, .relu⟩, ⟨32, .relu⟩, ⟨numClasses, .softmax⟩]
      loss := .categoricalCrossentropy
      targets := labels.map (oneHot numClasses) }

/-- `trainModel` of `hand-direction-detector.js`: identical branching,
with 16→8 relu hidden layers and the fixed `inputShape: [6]` of the
geometric feature vector. -/
def handTrainConfig (td : List (Sample ℚ)) : TrainConfig :=
  let uniqueLabels := deriveUniqueLabels td
  let numClasses := uniqueLabels.length
  let labelMap := labelMapPairs uniqueLabels
  let labels := td.map (fun s => (labelMap.lookup s.label).getD 0)
  if numClasses = 1 then
    { inputDim := 6
      layers := [⟨16, .relu⟩, ⟨8, .relu⟩, ⟨1, .sigmoid⟩]
      loss := .binaryCrossentropy
      targets := td.map (fun _ => [1]) }
  else
    { inputDim := 6
      layers := [⟨16, .relu⟩, ⟨8, .relu⟩, ⟨numClasses, .softmax⟩]
      loss := .categoricalCrossentropy
      targets := labels.map (oneHot numClasses) }

/-! ### Animal-detector inference (`detectAnimalsInTestMode`) -/

/-- `label.toLowerCase().includes(pat)` for a lowercase pattern:
the pattern's characters occur contiguously in the lowercased label. -/
def lowerContains (s pat : String) : Bool :=
  decide (List.IsInfix pat.data (s.data.map Char.toLower))

/-- `trainedLabels.some(label => label.toLowerCase().includes('background') || ... )`. -/
def hasBackgroundClass (trainedLabels : List String) : Bool :=
  trainedLabels.any (fun l =>
    lowerContains l "background" || lowerContains l "none" || lowerContains l "empty")

/-- `[...probArray].map((p, i) => ({prob: p, index: i})).sort((a, b) => b.prob - a.prob)`:
the probability/index pairs, stably sorted by probability descending. -/
def sortPairsDesc (probs : List ℚ) : List (ℚ × ℕ) :=
  List.insertionSort (fun a b => b.1 ≤ a.1) (probs.enum.map (fun p => (p.2, p.1)))

/-- `sortedProbs[0].prob` — the top probability. -/
def topConf (probs : List ℚ) : ℚ := ((sortPairsDesc probs).headD (0, 0)).1

/-- `sortedProbs[0].index` — the index of the (first) top probability. -/
def topIdx (probs : List ℚ) : ℕ := ((sortPairsDesc probs).headD (0, 0)).2

/-- `margin = probArray.length > 1 ? sortedProbs[0].prob - sortedProbs[1].prob : 1.0`. -/
def marginOf (probs : List ℚ) : ℚ :=
  if 1 < probs.length then
    topConf probs - (((sortPairsDesc probs).get? 1).getD (0, 0)).1
  else 1

/-- `effectiveThreshold = (!hasBackgroundClass && probArray.length === 2)
? Math.max(confidenceThreshold, 0.75) : confidenceThreshold`. -/
def effectiveThreshold (thr : ℚ) (trainedLabels : List String) (numProbs : ℕ) : ℚ :=
  if hasBackgroundClass trainedLabels = false ∧ numProbs = 2 then max thr (3 / 4)
  else thr

/-- The entropy loop
`for (p of probArray) if (p > 0.0001) entropy -= p * Math.log2(p)`. -/
noncomputable def entropyOf (probs : List ℚ) : ℝ :=
  ((probs.filter (fun p => 1 / 10000 < p)).map
    (fun p => -((p : ℝ) * Real.logb 2 (p : ℝ)))).sum

/-- `normalizedEntropy = entropy / Math.log2(probArray.length)`. -/
noncomputable def normalizedEntropy (probs : List ℚ) : ℝ :=
  entropyOf probs / Real.logb 2 (probs.length : ℝ)

/-- `isAmbiguous = normalizedEntropy > entropyThreshold || margin < marginThreshold`
with `entropyThreshold = 0.7`, `marginThreshold = 0.3`. -/
def multiIsAmbiguous (probs : List ℚ) : Prop :=
  normalizedEntropy probs > (7 / 10 : ℝ) ∨ marginOf probs < 3 / 10

/-- Multi-class branch of `detectAnimalsInTestMode` (reached when
`probArray.length !== 1`).  The JS sets `predictedAnimal = 'NONE'` both
when `shouldShowPrediction` is false and when `maxIndex` falls outside
`trainedLabels`; `'NONE'` is modelled as `Option.none`, a shown label as
`some label` (with the `' (LOW/AMBIG)'` suffix of raw-prediction mode). -/
noncomputable def animalDetectMulti (showRaw : Bool) (thr : ℚ)
    (trainedLabels : List String) (probs : List ℚ) : Option String :=
  let confidence := topConf probs
  let maxIndex := topIdx probs
  let effThr := effectiveThreshold thr trainedLabels probs.length
  if (showRaw = true ∨ (effThr ≤ confidence ∧ ¬ multiIsAmbiguous probs)) ∧
      0 < trainedLabels.length ∧ maxIndex < trainedLabels.length then
    if showRaw = true ∧ (confidence < thr ∨ multiIsAmbiguous probs) then
      some (trainedLabels.getD maxIndex "" ++ " (LOW/AMBIG)")
    else some (trainedLabels.getD maxIndex "")
  else none

/-- Binary branch of `detectAnimalsInTestMode` (`probArray.length === 1`):
`isAmbiguous = |confidence - 0.5| < 0.3`; the label is shown iff
`(showRawPredictions || (confidence >= threshold && !isAmbiguous)) && trainedLabels.length > 0`,
with a `' (LOW)'` suffix in raw mode when it would otherwise be hidden. -/
def animalDetectBinary (showRaw : Bool) (thr confidence : ℚ)
    (trainedLabels : List String) : Option String :=
  let isAmbiguous := |confidence - 1 / 2| < 3 / 10
  if (showRaw = true ∨ (thr ≤ confidence ∧ ¬ isAmbiguous)) ∧
      0 < trainedLabels.length then
    if showRaw = true ∧ (confidence < thr ∨ isAmbiguous) then
      some (trainedLabels.headI ++ " (LOW)")
    else some trainedLabels.headI
  else none

/-! ### Hand-direction inference (`detectDirectionWithTrainedModel`) -/

/-- Binary-classification branch of `detectDirectionWithTrainedModel`
(single trained class, one output unit): `predictedClass` is the single
trained class; reject when `confidence < 0.5`; otherwise accept exactly
when the geometric detection (`actualDirection`) equals the trained
class (the code also tests `predictedClass === trainedClass`, which in
this branch is identically true). -/
def handDetectBinary (confidence : ℚ) (trainedClass : String)
    (actualDirection : Option String) : Option (String × ℚ) :=
  if confidence < 1 / 2 then none
  else if trainedClass = trainedClass ∧ actualDirection = some trainedClass then
    some (trainedClass, confidence)
  else none

/-- `Math.max(...probabilities)` (list assumed non-empty in all uses). -/
def listMaxQ (probs : List ℚ) : ℚ :=
  match probs with
  | [] => 0
  | a :: t => t.foldl max a

/-- `probabilities.indexOf(Math.max(...probabilities))` — index of the
first maximal probability. -/
def idxOfMax (probs : List ℚ) : ℕ := probs.indexOf (listMaxQ probs)

/-- Multi-class new-format path of `detectDirectionWithTrainedModel`
(`labelMap` present, `trainedLabels.length === probabilities.length ≥ 2`),
starting after the forward pass:
1. `maxIndex = probabilities.indexOf(Math.max(...))`,
   `predictedClass = trainedLabels[maxIndex]` (error-return `null` when
   out of range), `confidence = probabilities[maxIndex]`;
2. `null` if `predictedClass` is not among the trained classes;
3. `null` if the geometric detection is non-null but not in the trained set;
4. `null` if `confidence < 0.25`;
5. if the geometric detection is in the trained set: accept the model's
   class when they agree; when they disagree, return the *geometric*
   direction with confidence `0.5` if `confidence < 0.4`, else the
   model's class;
6. with no usable geometric detection: accept the model's class when
   `confidence >= 0.35`, or (geometric detection null) when
   `confidence >= 0.5`; otherwise `null`.
`actualDirection` is the value of `this.detectDirection(landmarksForValidation)`,
passed here as an argument (its own embedding is `detectDirection` below). -/
def handDetectMulti (probs : List ℚ) (trainedLabels : List String)
    (actualDirection : Option String) : Option (String × ℚ) :=
  let maxIndex := idxOfMax probs
  if h : maxIndex < trainedLabels.length then
    let predictedClass := trainedLabels.get ⟨maxIndex, h⟩
    let confidence := (probs.get? maxIndex).getD 0
    if predictedClass ∉ trainedLabels then none
    else if ∃ d, actualDirection = some d ∧ d ∉ trainedLabels then none
    else if confidence < 1 / 4 then none
    else if ∃ d, actualDirection = some d ∧ d ∈ trainedLabels then
      if actualDirection = some predictedClass then some (predictedClass, confidence)
      else if confidence < 2 / 5 then
        some (actualDirection.getD "", 1 / 2)
      else some (predictedClass, confidence)
    else if (actualDirection = none ∨
        (∃ d, actualDirection = some d ∧ d ∉ trainedLabels)) ∧ 7 / 20 ≤ confidence then
      some (predictedClass, confidence)
    else if actualDirection = none ∧ 1 / 2 ≤ confidence then
      some (predictedClass, confidence)
    else none
  else none

/-! ### Geometric detection (`detectDirection`) and the hand feature
extractor (`extractFeatures`) -/

/-- One MediaPipe landmark (only the `x`/`y` coordinates are read by the
functions modelled here). -/
structure Pt where
  x : ℝ
  y : ℝ

/-- `this.WRIST = 0`. -/
def WRIST : ℕ := 0

/-- `this.INDEX_FINGER_MCP = 5`. -/
def INDEX_FINGER_MCP : ℕ := 5

/-- `this.INDEX_FINGER_TIP = 8`. -/
def INDEX_FINGER_TIP : ℕ := 8

/-- `Math.atan2(y, x)` in radians: the argument of the complex number
`x + y·i`, in `(-π, π]`. -/
noncomputable def atan2 (y x : ℝ) : ℝ := Complex.arg ⟨x, y⟩

/-- The `distance` computed by `detectDirection`:
`Math.sqrt(dx*dx + dy*dy)` for the MCP→tip vector. -/
noncomputable def fingerDist (landmarks : ℕ → Pt) : ℝ :=
  let indexTip := landmarks INDEX_FINGER_TIP
  let indexMCP := landmarks INDEX_FINGER_MCP
  let dx := indexTip.x - indexMCP.x
  let dy := indexTip.y - indexMCP.y
  Real.sqrt (dx * dx + dy * dy)

/-- `detectDirection(landmarks)`: `null` when the MCP→tip distance
(the inline `Math.sqrt(dx*dx + dy*dy)`, factored here as `fingerDist`)
is below `0.08`; otherwise flip `dx` for the mirrored display, take the
angle in degrees, normalize it into `[0, 360]` and map the four
90-degree sectors to `'right'`/`'down'`/`'left'`/`'up'`, with a trailing
`return null` fallback after the four range tests. -/
noncomputable def detectDirection (landmarks : ℕ → Pt) : Option String :=
  let indexTip := landmarks INDEX_FINGER_TIP
  let indexMCP := landmarks INDEX_FINGER_MCP
  let dx := indexTip.x - indexMCP.x
  let dy := indexTip.y - indexMCP.y
  let distance := fingerDist landmarks
  if distance < 0.08 then none
  else
    let userDx := -dx
    let userDy := dy
    let angle := atan2 userDy userDx * (180 / Real.pi)
    let normalizedAngle := if angle < 0 then angle + 360 else angle
    if (0 ≤ normalizedAngle ∧ normalizedAngle < 45) ∨
        (315 ≤ normalizedAngle ∧ normalizedAngle ≤ 360) then some "right"
    else if 45 ≤ normalizedAngle ∧ normalizedAngle < 135 then some "down"
    else if 135 ≤ normalizedAngle ∧ normalizedAngle < 225 then some "left"
    else if 225 ≤ normalizedAngle ∧ normalizedAngle < 315 then some "up"
    else none

/-- `extractFeatures(landmarks)` of `hand-direction-detector.js`: the
six-component geometric feature vector (normalized MCP→tip direction,
normalized MCP→wrist direction, MCP→tip distance, MCP→tip angle). -/
noncomputable def handExtractFeatures (landmarks : ℕ → Pt) : List ℝ :=
  let wrist := landmarks WRIST
  let indexMCP := landmarks INDEX_FINGER_MCP
  let indexTip := landmarks INDEX_FINGER_TIP
  let dx := indexTip.x - indexMCP.x
  let dy := indexTip.y - indexMCP.y
  let distance := Real.sqrt (dx * dx + dy * dy)
  let normalizedDx := if distance > 0 then dx / distance else 0
  let normalizedDy := if distance > 0 then dy / distance else 0
  let wristDx := wrist.x - indexMCP.x
  let wristDy := wrist.y - indexMCP.y
  let wristDist := Real.sqrt (wristDx * wristDx + wristDy * wristDy)
  let normalizedWristDx := if wristDist > 0 then wristDx / wristDist else 0
  let normalizedWristDy := if wristDist > 0 then wristDy / wristDist else 0
  [normalizedDx, normalizedDy, normalizedWristDx, normalizedWristDy,
    distance, atan2 dy dx]

/-! ### Sample upload (`handleFileUpload`) -/

/-- The store mutation performed for each successfully processed file in
`handleFileUpload` (both detectors):
`this.trainingData.push({features, label, ...})` — an unconditional
append, with no check of the feature-vector length against the existing
store. -/
def handleFileUploadAdd {α : Type} (trainingData : List (Sample α))
    (features : List α) (label : String) : List (Sample α) :=
  trainingData ++ [⟨features, label⟩]

/-! ## Helper lemmas -/

lemma mem_jsSetDedup {α : Type} [DecidableEq α] (l : List α) (x : α) :
    x ∈ jsSetDedup l ↔ x ∈ l := by
  induction l using jsSetDedup.induct with
  | case1 => simp [jsSetDedup]
  | case2 a t ih =>
    simp only [jsSetDedup, List.mem_cons, ih, List.mem_filter, decide_eq_true_eq]
    by_cases hxa : x = a <;> simp [hxa]

lemma nodup_jsSetDedup {α : Type} [DecidableEq α] (l : List α) :
    (jsSetDedup l).Nodup := by
  induction l using jsSetDedup.induct with
  | case1 => simp [jsSetDedup]
  | case2 a t ih =>
    rw [jsSetDedup]
    refine List.Nodup.cons ?_ ih
    rw [mem_jsSetDedup]
    simp

/-- Summing, over the distinct elements of a list, the number of times
each occurs gives back the length of the list. -/
lemma sum_count_jsSetDedup {α : Type} [DecidableEq α] (l : List α) :
    ((jsSetDedup l).map (fun x => l.count x)).sum = l.length := by
  induction l using jsSetDedup.induct with
  | case1 => simp [jsSetDedup]
  | case2 a t ih =>
    rw [jsSetDedup]
    simp only [List.map_cons, List.sum_cons]
    have hmap : (jsSetDedup (t.filter (fun x => x ≠ a))).map (fun x => (a :: t).count x) =
        (jsSetDedup (t.filter (fun x => x ≠ a))).map
          (fun x => (t.filter (fun x => x ≠ a)).count x) := by
      apply List.map_congr_left
      intro x hx
      rw [mem_jsSetDedup, List.mem_filter, decide_eq_true_eq] at hx
      rw [List.count_cons, if_neg (by simpa using Ne.symm hx.2), add_zero]
      exact (List.count_filter (by simpa using hx.2)).symm
    rw [hmap, ih, List.count_cons_self]
    have hsplit : t.length = (t.filter (fun x => x ≠ a)).length + t.count a := by
      rw [← List.countP_eq_length_filter, List.count_eq_countP]
      have h := List.length_eq_countP_add_countP (p := fun x => decide (x ≠ a)) (l := t)
      rw [h]
      congr 1
      apply List.countP_congr
      intro x _
      constructor
      · intro hx
        simp only [decide_eq_true_eq, not_not] at hx
        simp [hx]
      · intro hx
        simp only [beq_iff_eq] at hx
        subst hx
        simp
    simp only [List.length_cons]
    omega

/-- Appending an entry strictly newer than everything in the list and
sorting by `createdAt` descending puts that entry first and leaves the
sorted order of the rest unchanged. -/
lemma sortByCreatedAtDesc_append_newest (l : List CatalogEntry) (x : CatalogEntry)
    (h : ∀ e ∈ l, e.createdAt < x.createdAt) :
    sortByCreatedAtDesc (l ++ [x]) = x :: sortByCreatedAtDesc l := by
  induction l with
  | nil => rfl
  | cons a l ih =>
    have hax : ¬ (x.createdAt ≤ a.createdAt) := by
      have := h a (by simp)
      omega
    have hrest : ∀ e ∈ l, e.createdAt < x.createdAt := fun e he => h e (by simp [he])
    simp only [sortByCreatedAtDesc] at *
    rw [List.cons_append, List.insertionSort, ih hrest, List.insertionSort,
      List.orderedInsert, if_neg hax]

lemma sorted_le_deriveUniqueLabels {α : Type} (td : List (Sample α)) :
    List.Sorted (· ≤ ·) (deriveUniqueLabels td) :=
  List.sorted_insertionSort _ _

lemma nodup_deriveUniqueLabels {α : Type} (td : List (Sample α)) :
    (deriveUniqueLabels td).Nodup :=
  ((List.perm_insertionSort _ _).nodup_iff).mpr (nodup_jsSetDedup _)

lemma sorted_lt_deriveUniqueLabels {α : Type} (td : List (Sample α)) :
    List.Sorted (· < ·) (deriveUniqueLabels td) :=
  (sorted_le_deriveUniqueLabels td).lt_of_le (nodup_deriveUniqueLabels td)

lemma label_mem_deriveUniqueLabels {α : Type} (td : List (Sample α))
    (s : Sample α) (hs : s ∈ td) : s.label ∈ deriveUniqueLabels td := by
  unfold deriveUniqueLabels
  rw [(List.perm_insertionSort _ _).mem_iff, mem_jsSetDedup]
  exact List.mem_map_of_mem _ hs

lemma deriveUniqueLabels_perm {α : Type} (td₁ td₂ : List (Sample α))
    (h : td₁.Perm td₂) : deriveUniqueLabels td₁ = deriveUniqueLabels td₂ := by
  have hperm : jsSetDedup (td₁.map (·.label)) |>.Perm (jsSetDedup (td₂.map (·.label))) := by
    rw [List.perm_ext_iff_of_nodup (nodup_jsSetDedup _) (nodup_jsSetDedup _)]
    intro x
    rw [mem_jsSetDedup, mem_jsSetDedup]
    exact (h.map _).mem_iff
  refine List.eq_of_perm_of_sorted ?_
    (sorted_le_deriveUniqueLabels td₁) (sorted_le_deriveUniqueLabels td₂)
  exact (List.perm_insertionSort _ _).trans
    (hperm.trans (List.perm_insertionSort _ _).symm)

lemma lookup_enumFrom_get (L : List String) :
    ∀ (n i : ℕ) (hi : i < L.length), L.Nodup →
    ((List.enumFrom n L).map (fun p => (p.2, p.1))).lookup (L.get ⟨i, hi⟩) =
      some (n + i) := by
  induction L with
  | nil =>
    intro n i hi
    exact absurd hi (by simp)
  | cons a t ih =>
    intro n i hi hnd
    obtain ⟨ha, ht⟩ := List.nodup_cons.mp hnd
    cases i with
    | zero => simp [List.enumFrom, List.lookup]
    | succ j =>
      have hj : j < t.length := by
        simpa [Nat.succ_lt_succ_iff] using hi
      have hget : (a :: t).get ⟨j + 1, hi⟩ = t.get ⟨j, hj⟩ := rfl
      have hne : ¬ ((t.get ⟨j, hj⟩ == a) = true) := by
        simp only [beq_iff_eq]
        intro heq
        exact ha (heq ▸ List.get_mem t j hj)
      rw [hget]
      simp only [List.enumFrom, List.map_cons, List.lookup, hne, if_neg]
      rw [ih (n + 1) j hj ht]
      congr 1
      omega

/-- In the label map built from a duplicate-free label list, the `i`-th
label looks up to index `i`. -/
lemma lookup_labelMapPairs (L : List String) (hnd : L.Nodup)
    (i : ℕ) (hi : i < L.length) :
    (labelMapPairs L).lookup (L.get ⟨i, hi⟩) = some i := by
  have h := lookup_enumFrom_get L 0 i hi hnd
  simpa [labelMapPairs, List.enum] using h

lemma lookup_labelMapPairs_mem (L : List String) (hnd : L.Nodup)
    (l : String) (hl : l ∈ L) :
    ∃ i, i < L.length ∧ (labelMapPairs L).lookup l = some i := by
  obtain ⟨⟨i, hi⟩, rfl⟩ := List.mem_iff_get.mp hl
  exact ⟨i, hi, lookup_labelMapPairs L hnd i hi⟩

lemma labelMapPairs_snd (L : List String) :
    (labelMapPairs L).map Prod.snd = List.range L.length := by
  unfold labelMapPairs
  rw [List.map_map]
  have h : (Prod.snd ∘ fun p : ℕ × String => (p.2, p.1)) = Prod.fst := rfl
  rw [h, List.enum_map_fst]

/-- A 15-entry catalog with creation timestamps 1..15. -/
def catalog15 : List CatalogEntry :=
  (List.range 15).map (fun i => ⟨"model" ++ toString (i + 1), i + 1⟩)

/-- A 16th, newly created entry, strictly newer than all of `catalog15`. -/
def entry16 : CatalogEntry := ⟨"model16", 16⟩

/-! ## C1 — quota-eviction retry of `saveModel` -/

/-- C1 (counterexample): with 15 pre-existing entries (timestamps 1..15)
and a strictly newer 16th entry, the catalog persisted by the
quota-eviction retry has 10 entries, not the claimed 11, and the 10th
most recent pre-existing entry (timestamp 6) has been evicted rather
than retained. -/
theorem c1_counterexample :
    (putEntryQuotaPath catalog15 entry16).1.length = 10 ∧
    ¬ (putEntryQuotaPath catalog15 entry16).1.length = 11 ∧
    (⟨"model6", 6⟩ : CatalogEntry) ∉ (putEntryQuotaPath catalog15 entry16).1 := by
  refine ⟨by decide, by decide, by decide⟩

/-- C1 (amended): when the catalog metadata write fails with a quota
error, the retry performed by `saveModel` leaves the persisted catalog
containing exactly the 10 most recent entries *including the new one* —
the newly created entry plus the 9 most recent pre-existing entries —
and deletion of every other pre-existing entry's artifact has been
requested from the artifact store. -/
theorem c1_quota_eviction (existing : List CatalogEntry) (newE : CatalogEntry)
    (hNew : ∀ e ∈ existing, e.createdAt < newE.createdAt) :
    (putEntryQuotaPath existing newE).1 =
      newE :: (sortByCreatedAtDesc existing).take 9 ∧
    (putEntryQuotaPath existing newE).2 =
      ((sortByCreatedAtDesc existing).drop 9).map (·.storageKey) := by
  unfold putEntryQuotaPath quotaEvictionRetry
  rw [sortByCreatedAtDesc_append_newest existing newE hNew]
  dsimp only
  rw [show (10 : ℕ) = 9 + 1 from rfl, List.take_succ_cons, List.drop_succ_cons]
  exact ⟨rfl, rfl⟩

/-- C1 (witness): the amended statement evaluated on the concrete
15-entry catalog and 16th entry. -/
theorem c1_quota_eviction_witness :
    (putEntryQuotaPath catalog15 entry16).1 =
      entry16 :: (sortByCreatedAtDesc catalog15).take 9 ∧
    (putEntryQuotaPath catalog15 entry16).2 =
      ((sortByCreatedAtDesc catalog15).drop 9).map (·.storageKey) :=
  c1_quota_eviction catalog15 entry16 (by decide)

/-! ## C2 — binary ambiguity band -/

/-- C2 (counterexample): the hand-direction engine's binary branch has
no ambiguity band.  A raw confidence of `0.55` lies inside the claimed
band `|p - 0.5| < 0.3`, yet when the geometric detection agrees with the
trained class the engine returns the label instead of no label. -/
theorem c2_counterexample :
    |(11 / 20 : ℚ) - 1 / 2| < 3 / 10 ∧
    handDetectBinary (11 / 20) "up" (some "up") = some ("up", 11 / 20) :=
  ⟨by rw [abs_lt]; constructor <;> norm_num, by norm_num [handDetectBinary]⟩

/-- C2 (amended): the ambiguity band is specific to the animal-detector
engine: there, with debug mode off, any single-output confidence with
`|p - 0.5| < 0.3` yields no label whatever the configured threshold.
The hand-direction engine's binary branch instead returns no label
exactly when the confidence is below the fixed `0.5` threshold or the
geometric detection differs from the trained class — so `0.55` with an
agreeing geometric detection is accepted there. -/
theorem c2_binary_gating :
    (∀ (thr conf : ℚ) (trainedLabels : List String),
      |conf - 1 / 2| < 3 / 10 →
      animalDetectBinary false thr conf trainedLabels = none) ∧
    (∀ (conf : ℚ) (t : String) (actualDirection : Option String),
      handDetectBinary conf t actualDirection = none ↔
        conf < 1 / 2 ∨ actualDirection ≠ some t) := by
  constructor
  · intro thr conf L h
    unfold animalDetectBinary
    rw [if_neg]
    rintro ⟨hshow | ⟨-, hnamb⟩, -⟩
    · simp at hshow
    · exact hnamb h
  · intro conf t ad
    unfold handDetectBinary
    split_ifs with h1 h2
    · exact iff_of_true rfl (Or.inl h1)
    · refine iff_of_false (by simp) ?_
      rintro (hc | hne)
      · exact h1 hc
      · exact hne h2.2
    · exact iff_of_true rfl (Or.inr (fun had => h2 ⟨rfl, had⟩))

/-- C2 (witness): the animal-engine half of the amended statement at
threshold `0.3` and raw confidence `0.55`. -/
theorem c2_binary_gating_witness :
    |(11 / 20 : ℚ) - 1 / 2| < 3 / 10 ∧
    animalDetectBinary false (3 / 10) (11 / 20) ["cat"] = none := by
  have hband : |(11 / 20 : ℚ) - 1 / 2| < 3 / 10 := by
    rw [abs_lt]; constructor <;> norm_num
  exact ⟨hband, c2_binary_gating.1 (3 / 10) (11 / 20) ["cat"] hband⟩

/-! ## C3 — multi-class entropy/margin ambiguity gate -/

/-- C3: with debug mode off, whenever the normalized entropy of the
probability vector exceeds `0.7` or the top-two margin is below `0.3`
(`multiIsAmbiguous`), the animal-detector multi-class branch returns no
label, for every configured confidence threshold and label list. -/
theorem c3_multiclass_ambiguity (thr : ℚ) (trainedLabels : List String)
    (probs : List ℚ) (_hlen : 2 ≤ probs.length)
    (hamb : multiIsAmbiguous probs) :
    animalDetectMulti false thr trainedLabels probs = none := by
  unfold animalDetectMulti
  rw [if_neg]
  rintro ⟨hshow | ⟨-, hnamb⟩, -⟩
  · simp at hshow
  · exact hnamb hamb

/-- C3 (witness): the probability vector `[0.34, 0.33, 0.33]` has
top-two margin `0.01 < 0.3`, so it is ambiguous and rejected. -/
theorem c3_multiclass_ambiguity_witness :
    2 ≤ ([34 / 100, 33 / 100, 33 / 100] : List ℚ).length ∧
    multiIsAmbiguous [34 / 100, 33 / 100, 33 / 100] ∧
    animalDetectMulti false 0 ["a", "b", "c"] [34 / 100, 33 / 100, 33 / 100] = none := by
  have hm : marginOf [34 / 100, 33 / 100, 33 / 100] < 3 / 10 := by
    norm_num [marginOf, topConf, sortPairsDesc, List.insertionSort,
      List.orderedInsert, List.enum, List.enumFrom]
  exact ⟨by decide, Or.inr hm,
    c3_multiclass_ambiguity 0 ["a", "b", "c"] [34 / 100, 33 / 100, 33 / 100]
      (by decide) (Or.inr hm)⟩

/-! ## C4 — raised threshold for two-class models without a background
class -/

/-- The binary entropy of the probability pair `(0.8, 0.2)` normalized
by `log2 2` exceeds the `0.7` entropy gate
(it is `(10·log 5 − 16·log 2)/(10·log 2) ≈ 0.722`). -/
lemma normalizedEntropy_eight_two : normalizedEntropy [4 / 5, 1 / 5] > 7 / 10 := by
  have hfil : ([4 / 5, 1 / 5] : List ℚ).filter (fun p => (1 : ℚ) / 10000 < p) =
      [4 / 5, 1 / 5] := by
    norm_num [List.filter]
  have hlog2 : (0 : ℝ) < Real.log 2 := Real.log_pos (by norm_num)
  have h23 : (23 : ℝ) * Real.log 2 < 10 * Real.log 5 := by
    have h : Real.log ((2 : ℝ) ^ 23) < Real.log ((5 : ℝ) ^ 10) :=
      Real.log_lt_log (by positivity) (by norm_num)
    rw [Real.log_pow, Real.log_pow] at h
    push_cast at h
    linarith
  have hlog45 : Real.log ((4 : ℝ) / 5) = 2 * Real.log 2 - Real.log 5 := by
    rw [Real.log_div (by norm_num) (by norm_num),
      show (4 : ℝ) = 2 ^ 2 by norm_num, Real.log_pow]
    push_cast
    ring
  have hlog15 : Real.log ((1 : ℝ) / 5) = -Real.log 5 := by
    rw [show (1 : ℝ) / 5 = 5⁻¹ by norm_num, Real.log_inv]
  unfold normalizedEntropy entropyOf
  rw [hfil]
  simp only [List.map, List.sum_cons, List.sum_nil, List.length_cons, List.length_nil]
  rw [Real.logb, Real.logb, Real.logb]
  push_cast
  rw [hlog45, hlog15]
  rw [gt_iff_lt, show Real.log 2 / Real.log 2 = 1 from div_self hlog2.ne', div_one]
  rw [show -(4 / 5 * ((2 * Real.log 2 - Real.log 5) / Real.log 2)) +
      (-(1 / 5 * (-Real.log 5 / Real.log 2)) + 0) =
      (10 * Real.log 5 - 16 * Real.log 2) / (10 * Real.log 2) by field_simp; ring]
  rw [lt_div_iff (by linarith)]
  linarith

/-- The binary entropy of `(0.9, 0.1)` normalized by `log2 2` stays at
or below the `0.7` entropy gate (it is ≈ 0.469). -/
lemma normalizedEntropy_nine_one : ¬ (normalizedEntropy [9 / 10, 1 / 10] > 7 / 10) := by
  have hfil : ([9 / 10, 1 / 10] : List ℚ).filter (fun p => (1 : ℚ) / 10000 < p) =
      [9 / 10, 1 / 10] := by
    norm_num [List.filter]
  have hlog2 : (0 : ℝ) < Real.log 2 := Real.log_pos (by norm_num)
  have hkey : (3 : ℝ) * Real.log 2 + 10 * Real.log 5 ≤ 18 * Real.log 3 := by
    have h : Real.log ((2 : ℝ) ^ 3 * 5 ^ 10) ≤ Real.log ((3 : ℝ) ^ 18) := by
      rw [Real.log_le_log_iff (by positivity) (by positivity)]
      norm_num
    rw [Real.log_mul (by positivity) (by positivity), Real.log_pow,
      Real.log_pow, Real.log_pow] at h
    push_cast at h
    linarith
  have hlog910 : Real.log ((9 : ℝ) / 10) = 2 * Real.log 3 - (Real.log 2 + Real.log 5) := by
    rw [Real.log_div (by norm_num) (by norm_num),
      show (9 : ℝ) = 3 ^ 2 by norm_num, Real.log_pow,
      show (10 : ℝ) = 2 * 5 by norm_num, Real.log_mul (by norm_num) (by norm_num)]
    push_cast
    ring
  have hlog110 : Real.log ((1 : ℝ) / 10) = -(Real.log 2 + Real.log 5) := by
    rw [show (1 : ℝ) / 10 = 10⁻¹ by norm_num, Real.log_inv,
      show (10 : ℝ) = 2 * 5 by norm_num, Real.log_mul (by norm_num) (by norm_num)]
  unfold normalizedEntropy entropyOf
  rw [hfil]
  simp only [List.map, List.sum_cons, List.sum_nil, List.length_cons, List.length_nil]
  rw [Real.logb, Real.logb, Real.logb]
  push_cast
  rw [hlog910, hlog110]
  rw [show Real.log 2 / Real.log 2 = 1 from div_self hlog2.ne', div_one]
  push_neg
  rw [show -(9 / 10 * ((2 * Real.log 3 - (Real.log 2 + Real.log 5)) / Real.log 2)) +
      (-(1 / 10 * (-(Real.log 2 + Real.log 5) / Real.log 2)) + 0) =
      (10 * Real.log 2 + 10 * Real.log 5 - 18 * Real.log 3) / (10 * Real.log 2) by
        field_simp; ring]
  rw [div_le_iff (by linarith)]
  linarith

/-- The probability vector `(0.8, 0.2)` is rejected by the two-class
animal-detector inference at threshold `0.3`: its top value `0.8`
clears the raised `0.75` threshold but the entropy gate marks it
ambiguous. -/
lemma animalDetectMulti_eight_rejected :
    animalDetectMulti false (3 / 10) ["cat", "dog"] [4 / 5, 1 / 5] = none := by
  unfold animalDetectMulti
  rw [if_neg]
  rintro ⟨h | ⟨-, hnamb⟩, -⟩
  · simp at h
  · exact hnamb (Or.inl normalizedEntropy_eight_two)

/-- C4 (counterexample): the claim's acceptance example fails — with
labels `["cat","dog"]` and threshold `0.3`, a top probability of `0.8`
(probability vector `[0.8, 0.2]`) is rejected, because its normalized
entropy ≈ 0.722 exceeds the `0.7` ambiguity gate. -/
theorem c4_counterexample :
    animalDetectMulti false (3 / 10) ["cat", "dog"] [4 / 5, 1 / 5] = none :=
  animalDetectMulti_eight_rejected

/-- C4 (amended): for a 2-class model with no background-indicating
label name, the acceptance threshold is `max(confidenceThreshold, 0.75)`
— any top probability below it is rejected; with labels `["cat","dog"]`
and threshold `0.3`, a top probability of `0.6` is rejected, `0.8` is
*also* rejected (the normalized entropy of `(0.8, 0.2)` exceeds the
`0.7` gate), and `0.9` is accepted. -/
theorem c4_two_class_threshold :
    (∀ (thr : ℚ) (trainedLabels : List String) (probs : List ℚ),
      probs.length = 2 → hasBackgroundClass trainedLabels = false →
      topConf probs < max thr (3 / 4) →
      animalDetectMulti false thr trainedLabels probs = none) ∧
    animalDetectMulti false (3 / 10) ["cat", "dog"] [3 / 5, 2 / 5] = none ∧
    animalDetectMulti false (3 / 10) ["cat", "dog"] [4 / 5, 1 / 5] = none ∧
    animalDetectMulti false (3 / 10) ["cat", "dog"] [9 / 10, 1 / 10] = some "cat" := by
  refine ⟨?_, ?_, animalDetectMulti_eight_rejected, ?_⟩
  · intro thr L probs hlen hbg hconf
    unfold animalDetectMulti
    rw [if_neg]
    rintro ⟨h | ⟨hth, -⟩, -⟩
    · simp at h
    · rw [show effectiveThreshold thr L probs.length = max thr (3 / 4) by
        simp [effectiveThreshold, hbg, hlen]] at hth
      exact absurd hconf (not_lt.mpr hth)
  · unfold animalDetectMulti
    rw [if_neg]
    rintro ⟨h | ⟨hth, -⟩, -⟩
    · simp at h
    · have hbg : hasBackgroundClass ["cat", "dog"] = false := by decide
      rw [show effectiveThreshold (3 / 10) ["cat", "dog"]
          (List.length ([3 / 5, 2 / 5] : List ℚ)) = max (3 / 10) (3 / 4) by
        simp [effectiveThreshold, hbg]] at hth
      have hconf : topConf ([3 / 5, 2 / 5] : List ℚ) = 3 / 5 := by
        norm_num [topConf, sortPairsDesc, List.insertionSort, List.orderedInsert,
          List.enum, List.enumFrom]
      rw [hconf] at hth
      have h34 : (3 : ℚ) / 4 ≤ 3 / 5 := le_trans (le_max_right _ _) hth
      norm_num at h34
  · have hidx : topIdx ([9 / 10, 1 / 10] : List ℚ) = 0 := by
      norm_num [topIdx, sortPairsDesc, List.insertionSort, List.orderedInsert,
        List.enum, List.enumFrom]
    have hconf : topConf ([9 / 10, 1 / 10] : List ℚ) = 9 / 10 := by
      norm_num [topConf, sortPairsDesc, List.insertionSort, List.orderedInsert,
        List.enum, List.enumFrom]
    have hmargin : marginOf ([9 / 10, 1 / 10] : List ℚ) = 4 / 5 := by
      norm_num [marginOf, topConf, sortPairsDesc, List.insertionSort,
        List.orderedInsert, List.enum, List.enumFrom]
    have hnamb : ¬ multiIsAmbiguous [9 / 10, 1 / 10] := by
      rintro (h | h)
      · exact normalizedEntropy_nine_one h
      · rw [hmargin] at h
        norm_num at h
    have hbg : hasBackgroundClass ["cat", "dog"] = false := by decide
    unfold animalDetectMulti
    dsimp only
    split
    · rename_i h1
      split
      · rename_i h2
        exact absurd h2.1 (by simp)
      · rw [hidx]
        rfl
    · rename_i h1
      refine absurd ⟨Or.inr ⟨?_, hnamb⟩, by decide, ?_⟩ h1
      · rw [hconf, show effectiveThreshold (3 / 10) ["cat", "dog"]
            (List.length ([9 / 10, 1 / 10] : List ℚ)) = max (3 / 10) (3 / 4) by
          simp [effectiveThreshold, hbg]]
        exact max_le (by norm_num) (by norm_num)
      · rw [hidx]
        decide

/-- C4 (witness): the quantified part of the amended statement at the
concrete 2-class instance — labels `["cat","dog"]`, threshold `0.3`,
probabilities `[0.6, 0.4]` (top `0.6 < 0.75`). -/
theorem c4_two_class_threshold_witness :
    ([3 / 5, 2 / 5] : List ℚ).length = 2 ∧
    hasBackgroundClass ["cat", "dog"] = false ∧
    topConf [3 / 5, 2 / 5] < max (3 / 10) (3 / 4) ∧
    animalDetectMulti false (3 / 10) ["cat", "dog"] [3 / 5, 2 / 5] = none := by
  have hconf : topConf ([3 / 5, 2 / 5] : List ℚ) < max (3 / 10) (3 / 4) := by
    have : topConf ([3 / 5, 2 / 5] : List ℚ) = 3 / 5 := by
      norm_num [topConf, sortPairsDesc, List.insertionSort, List.orderedInsert,
        List.enum, List.enumFrom]
    rw [this]
    exact lt_of_lt_of_le (by norm_num) (le_max_right _ _)
  exact ⟨by decide, by decide, hconf,
    c4_two_class_threshold.1 (3 / 10) ["cat", "dog"] [3 / 5, 2 / 5]
      (by decide) (by decide) hconf⟩

/-! ## C5 — trainer branching (binary vs. multi-class) -/

/-- C5: for a training set, writing `K` for the number of distinct
labels: if `K = 1` both trainers build a model ending in a single
sigmoid unit, compiled with binary cross-entropy, whose target for
every sample is `1.0`; if `K ≥ 2` both build a model ending in exactly
`K` softmax units, compiled with categorical cross-entropy, with
one-hot targets over `labelMap` (every sample's label looks up to some
index `i < K`); and in both branches the hidden layers are the same
fixed stacks (64→32 relu for the animal detector, 16→8 relu for the
hand detector), independent of `K`. -/
theorem c5_trainer_branching (td : List (Sample ℚ)) (_htd : td ≠ []) :
    ((animalTrainConfig td).layers.take 2 = [⟨64, .relu⟩, ⟨32, .relu⟩] ∧
     (handTrainConfig td).layers.take 2 = [⟨16, .relu⟩, ⟨8, .relu⟩]) ∧
    ((deriveUniqueLabels td).length = 1 →
      (animalTrainConfig td).layers = [⟨64, .relu⟩, ⟨32, .relu⟩, ⟨1, .sigmoid⟩] ∧
      (animalTrainConfig td).loss = .binaryCrossentropy ∧
      (animalTrainConfig td).targets = td.map (fun _ => [1]) ∧
      (handTrainConfig td).layers = [⟨16, .relu⟩, ⟨8, .relu⟩, ⟨1, .sigmoid⟩] ∧
      (handTrainConfig td).loss = .binaryCrossentropy ∧
      (handTrainConfig td).targets = td.map (fun _ => [1])) ∧
    (2 ≤ (deriveUniqueLabels td).length →
      (animalTrainConfig td).layers =
        [⟨64, .relu⟩, ⟨32, .relu⟩, ⟨(deriveUniqueLabels td).length, .softmax⟩] ∧
      (animalTrainConfig td).loss = .categoricalCrossentropy ∧
      (animalTrainConfig td).targets = td.map (fun s =>
        oneHot (deriveUniqueLabels td).length
          (((labelMapPairs (deriveUniqueLabels td)).lookup s.label).getD 0)) ∧
      (handTrainConfig td).layers =
        [⟨16, .relu⟩, ⟨8, .relu⟩, ⟨(deriveUniqueLabels td).length, .softmax⟩] ∧
      (handTrainConfig td).loss = .categoricalCrossentropy ∧
      (handTrainConfig td).targets = td.map (fun s =>
        oneHot (deriveUniqueLabels td).length
          (((labelMapPairs (deriveUniqueLabels td)).lookup s.label).getD 0)) ∧
      ∀ s ∈ td, ∃ i, i < (deriveUniqueLabels td).length ∧
        (labelMapPairs (deriveUniqueLabels td)).lookup s.label = some i) := by
  have ha1 : (deriveUniqueLabels td).length = 1 →
      animalTrainConfig td =
      { inputDim := ((td.headD ⟨[], ""⟩).features).length
        layers := [⟨64, .relu⟩, ⟨32, .relu⟩, ⟨1, .sigmoid⟩]
        loss := .binaryCrossentropy
        targets := td.map (fun _ => [1]) } := by
    intro h
    unfold animalTrainConfig
    dsimp only
    rw [if_pos h]
  have ha2 : ¬ (deriveUniqueLabels td).length = 1 →
      animalTrainConfig td =
      { inputDim := ((td.headD ⟨[], ""⟩).features).length
        layers := [⟨64, .relu⟩, ⟨32, .relu⟩,
          ⟨(deriveUniqueLabels td).length, .softmax⟩]
        loss := .categoricalCrossentropy
        targets := (td.map (fun s =>
          (((labelMapPairs (deriveUniqueLabels td)).lookup s.label).getD 0))).map
            (oneHot (deriveUniqueLabels td).length) } := by
    intro h
    unfold animalTrainConfig
    dsimp only
    rw [if_neg h]
  have hh1 : (deriveUniqueLabels td).length = 1 →
      handTrainConfig td =
      { inputDim := 6
        layers := [⟨16, .relu⟩, ⟨8, .relu⟩, ⟨1, .sigmoid⟩]
        loss := .binaryCrossentropy
        targets := td.map (fun _ => [1]) } := by
    intro h
    unfold handTrainConfig
    dsimp only
    rw [if_pos h]
  have hh2 : ¬ (deriveUniqueLabels td).length = 1 →
      handTrainConfig td =
      { inputDim := 6
        layers := [⟨16, .relu⟩, ⟨8, .relu⟩,
          ⟨(deriveUniqueLabels td).length, .softmax⟩]
        loss := .categoricalCrossentropy
        targets := (td.map (fun s =>
          (((labelMapPairs (deriveUniqueLabels td)).lookup s.label).getD 0))).map
            (oneHot (deriveUniqueLabels td).length) } := by
    intro h
    unfold handTrainConfig
    dsimp only
    rw [if_neg h]
  refine ⟨?_, ?_, ?_⟩
  · by_cases h : (deriveUniqueLabels td).length = 1
    · rw [ha1 h, hh1 h]
      exact ⟨rfl, rfl⟩
    · rw [ha2 h, hh2 h]
      exact ⟨rfl, rfl⟩
  · intro h
    rw [ha1 h, hh1 h]
    exact ⟨rfl, rfl, rfl, rfl, rfl, rfl⟩
  · intro h
    have h1 : ¬ (deriveUniqueLabels td).length = 1 := by omega
    rw [ha2 h1, hh2 h1]
    refine ⟨rfl, rfl, by rw [List.map_map]; rfl, rfl, rfl, by rw [List.map_map]; rfl, ?_⟩
    intro s hs
    exact lookup_labelMapPairs_mem (deriveUniqueLabels td)
      (nodup_deriveUniqueLabels td) s.label (label_mem_deriveUniqueLabels td s hs)

/-- Single-sample training set, one distinct label. -/
def c5td1 : List (Sample ℚ) := [⟨[1, 2], "dog"⟩]

/-- Two-sample training set with two distinct labels. -/
def c5td2 : List (Sample ℚ) := [⟨[1], "dog"⟩, ⟨[2], "cat"⟩]

/-- C5 (witness): the single-label branch at `[("dog")]` and the
two-label branch at `[("dog"), ("cat")]`. -/
theorem c5_trainer_branching_witness :
    ((deriveUniqueLabels c5td1).length = 1 ∧
     (animalTrainConfig c5td1).loss = .binaryCrossentropy ∧
     (handTrainConfig c5td1).targets = c5td1.map (fun _ => [1])) ∧
    (2 ≤ (deriveUniqueLabels c5td2).length ∧
     (animalTrainConfig c5td2).loss = .categoricalCrossentropy ∧
     (animalTrainConfig c5td2).layers =
       [⟨64, .relu⟩, ⟨32, .relu⟩, ⟨(deriveUniqueLabels c5td2).length, .softmax⟩]) := by
  have h1 : deriveUniqueLabels c5td1 = ["dog"] := by
    simp +decide [deriveUniqueLabels, c5td1, jsSetDedup,
      List.insertionSort, List.orderedInsert]
  have h2 : deriveUniqueLabels c5td2 = ["cat", "dog"] := by
    simp +decide [deriveUniqueLabels, c5td2, jsSetDedup,
      List.insertionSort, List.orderedInsert, String.le_iff_toList_le]
  have w1 := c5_trainer_branching c5td1 (by simp [c5td1])
  have w2 := c5_trainer_branching c5td2 (by simp [c5td2])
  have k1 : (deriveUniqueLabels c5td1).length = 1 := by rw [h1]; rfl
  have k2 : 2 ≤ (deriveUniqueLabels c5td2).length := by rw [h2]; exact le_refl 2
  obtain ⟨-, hb, -⟩ := w1
  obtain ⟨-, -, hm⟩ := w2
  obtain ⟨-, hb2, -, -, -, hb6⟩ := hb k1
  obtain ⟨hm1, hm2, -⟩ := hm k2
  exact ⟨⟨k1, hb2, hb6⟩, k2, hm2, hm1⟩

/-! ## C6 — label codec: sorted, dense, order-independent -/

/-- C6: for every training set the derived label list is strictly
sorted (hence duplicate-free), its label map assigns the labels the
consecutive indices `0..K-1` (the second components are exactly
`range K` and the `i`-th label looks up to `i`), and both the label
list and the label map are invariant under permutations of the
samples. -/
theorem c6_label_codec :
    (∀ (td : List (Sample ℚ)),
      List.Sorted (· < ·) (deriveUniqueLabels td) ∧
      (labelMapPairs (deriveUniqueLabels td)).map Prod.snd =
        List.range (deriveUniqueLabels td).length ∧
      ∀ (i : ℕ) (hi : i < (deriveUniqueLabels td).length),
        (labelMapPairs (deriveUniqueLabels td)).lookup
          ((deriveUniqueLabels td).get ⟨i, hi⟩) = some i) ∧
    ∀ (td₁ td₂ : List (Sample ℚ)), td₁.Perm td₂ →
      deriveUniqueLabels td₁ = deriveUniqueLabels td₂ ∧
      labelMapPairs (deriveUniqueLabels td₁) =
        labelMapPairs (deriveUniqueLabels td₂) := by
  refine ⟨fun td => ⟨sorted_lt_deriveUniqueLabels td, labelMapPairs_snd _,
    fun i hi => lookup_labelMapPairs _ (nodup_deriveUniqueLabels td) i hi⟩,
    fun td₁ td₂ h => ?_⟩
  have he := deriveUniqueLabels_perm td₁ td₂ h
  exact ⟨he, by rw [he]⟩

/-- C6 (witness): swapping the two samples of a two-sample store leaves
the derived `(labels, labelMap)` unchanged, and the labels are strictly
sorted. -/
theorem c6_label_codec_witness :
    ([⟨[], "b"⟩, ⟨[], "a"⟩] : List (Sample ℚ)).Perm [⟨[], "a"⟩, ⟨[], "b"⟩] ∧
    deriveUniqueLabels ([⟨[], "b"⟩, ⟨[], "a"⟩] : List (Sample ℚ)) =
      deriveUniqueLabels ([⟨[], "a"⟩, ⟨[], "b"⟩] : List (Sample ℚ)) ∧
    List.Sorted (· < ·)
      (deriveUniqueLabels ([⟨[], "b"⟩, ⟨[], "a"⟩] : List (Sample ℚ))) := by
  have hperm : ([⟨[], "b"⟩, ⟨[], "a"⟩] : List (Sample ℚ)).Perm
      [⟨[], "a"⟩, ⟨[], "b"⟩] := List.Perm.swap _ _ _
  exact ⟨hperm, (c6_label_codec.2 _ _ hperm).1, (c6_label_codec.1 _).1⟩

/-! ## C9 — `saveModel` metadata invariants -/

/-- C9: every metadata record built by `saveModel` — whether the label
list and label map are recomputed (`null` arguments) or handed over by
`trainModel` (which derives them by the same expressions from the same
training data) — has a strictly sorted, duplicate-free `trainedLabels`,
a `labelMap` sending the `i`-th trained label to `i`, and `labelCounts`
values summing to `trainingDataCount`. -/
theorem c9_metadata_invariants (α : Type) (td : List (Sample α))
    (ulArg : Option (List String)) (lmArg : Option (List (String × ℕ)))
    (hul : ulArg = none ∨ ulArg = some (deriveUniqueLabels td))
    (hlm : lmArg = none ∨
      lmArg = some (labelMapPairs (ulArg.getD (deriveUniqueLabels td)))) :
    List.Sorted (· < ·) (mkModelInfo td ulArg lmArg).trainedLabels ∧
    (∀ (i : ℕ) (hi : i < (mkModelInfo td ulArg lmArg).trainedLabels.length),
      (mkModelInfo td ulArg lmArg).labelMap.lookup
        ((mkModelInfo td ulArg lmArg).trainedLabels.get ⟨i, hi⟩) = some i) ∧
    ((mkModelInfo td ulArg lmArg).labelCounts.map Prod.snd).sum =
      (mkModelInfo td ulArg lmArg).trainingDataCount := by
  have hul' : ulArg.getD (deriveUniqueLabels td) = deriveUniqueLabels td := by
    rcases hul with h | h <;> simp [h]
  have hlm' : lmArg.getD (labelMapPairs (ulArg.getD (deriveUniqueLabels td))) =
      labelMapPairs (deriveUniqueLabels td) := by
    rcases hlm with h | h <;> simp [h, hul']
  have hfields : mkModelInfo td ulArg lmArg =
      { trainingDataCount := td.length
        trainedLabels := deriveUniqueLabels td
        labelMap := labelMapPairs (deriveUniqueLabels td)
        labelCounts := labelCountsList td } := by
    unfold mkModelInfo
    dsimp only
    rw [hul'] at hlm'
    rw [hul', hlm']
  rw [hfields]
  refine ⟨sorted_lt_deriveUniqueLabels td,
    fun i hi => lookup_labelMapPairs _ (nodup_deriveUniqueLabels td) i hi, ?_⟩
  show ((labelCountsList td).map Prod.snd).sum = td.length
  unfold labelCountsList
  rw [List.map_map]
  have hcomp : (Prod.snd ∘ fun l => (l, (td.map (·.label)).count l)) =
      fun l => (td.map (·.label)).count l := rfl
  rw [hcomp, sum_count_jsSetDedup, List.length_map]

/-- C9 (witness): the metadata invariants evaluated on a concrete
three-sample store with recomputed (`none`) label arguments. -/
theorem c9_metadata_invariants_witness :
    List.Sorted (· < ·)
      (mkModelInfo ([⟨[], "dog"⟩, ⟨[], "cat"⟩, ⟨[], "dog"⟩] : List (Sample ℚ))
        none none).trainedLabels ∧
    ((mkModelInfo ([⟨[], "dog"⟩, ⟨[], "cat"⟩, ⟨[], "dog"⟩] : List (Sample ℚ))
        none none).labelCounts.map Prod.snd).sum =
      (mkModelInfo ([⟨[], "dog"⟩, ⟨[], "cat"⟩, ⟨[], "dog"⟩] : List (Sample ℚ))
        none none).trainingDataCount := by
  have h := c9_metadata_invariants ℚ [⟨[], "dog"⟩, ⟨[], "cat"⟩, ⟨[], "dog"⟩]
    none none (Or.inl rfl) (Or.inl rfl)
  exact ⟨h.1, h.2.2⟩

/-! ## C7 — no dimension check on sample upload -/

/-- C7 (counterexample): adding a sample whose feature vector has a
different length from the one already in the store succeeds and grows
the store — there is no `DimensionMismatch` failure and the store does
not stay unchanged. -/
theorem c7_counterexample :
    handleFileUploadAdd ([⟨[1, 2, 3], "a"⟩] : List (Sample ℚ)) [1, 2, 3, 4, 5] "b" =
      [⟨[1, 2, 3], "a"⟩, ⟨[1, 2, 3, 4, 5], "b"⟩] ∧
    (handleFileUploadAdd ([⟨[1, 2, 3], "a"⟩] : List (Sample ℚ))
      [1, 2, 3, 4, 5] "b").length = 2 ∧
    handleFileUploadAdd ([⟨[1, 2, 3], "a"⟩] : List (Sample ℚ)) [1, 2, 3, 4, 5] "b" ≠
      [⟨[1, 2, 3], "a"⟩] := by
  refine ⟨rfl, rfl, ?_⟩
  intro h
  have hlen := congrArg List.length h
  simp [handleFileUploadAdd] at hlen

/-- C7 (amended): `handleFileUpload` performs no feature-length check:
it unconditionally appends each successfully processed sample, always
growing the store by one.  The uniform-feature-length invariant of the
hand detector's store is nevertheless maintained, not by the store but
by the extractor: `extractFeatures` always returns exactly 6 features,
so a store of 6-feature samples stays a store of 6-feature samples. -/
theorem c7_no_dimension_check :
    (∀ (α : Type) (store : List (Sample α)) (features : List α) (label : String),
      handleFileUploadAdd store features label = store ++ [⟨features, label⟩] ∧
      (handleFileUploadAdd store features label).length = store.length + 1) ∧
    (∀ landmarks : ℕ → Pt, (handExtractFeatures landmarks).length = 6) ∧
    (∀ (store : List (Sample ℝ)) (landmarks : ℕ → Pt) (label : String),
      (∀ s ∈ store, s.features.length = 6) →
      ∀ s ∈ handleFileUploadAdd store (handExtractFeatures landmarks) label,
        s.features.length = 6) := by
  refine ⟨fun α store f l => ⟨rfl, by simp [handleFileUploadAdd]⟩,
    fun lm => rfl, ?_⟩
  intro store lm label hstore s hs
  rcases List.mem_append.mp hs with hmem | hmem
  · exact hstore s hmem
  · rw [List.mem_singleton.mp hmem]
    rfl

/-- C7 (witness): the preservation part of the amended statement on a
concrete store and landmark frame. -/
theorem c7_no_dimension_check_witness :
    (∀ s ∈ ([] : List (Sample ℝ)), s.features.length = 6) ∧
    ∀ s ∈ handleFileUploadAdd ([] : List (Sample ℝ))
        (handExtractFeatures (fun _ => ⟨0, 0⟩)) "up",
      s.features.length = 6 := by
  have hnil : ∀ s ∈ ([] : List (Sample ℝ)), s.features.length = 6 := by
    intro s hs
    cases hs
  exact ⟨hnil, c7_no_dimension_check.2.2 [] (fun _ => ⟨0, 0⟩) "up" hnil⟩

/-! ## C8 — provenance of the returned label (model vs. geometric
heuristic) -/

/-- C8 (counterexample): the hand-direction engine substitutes the
geometric heuristic's output for the classifier's prediction.  With
probabilities `[0.3, 0.35]` over trained labels `["down","up"]` the
model's own prediction is `"up"`, but because the geometric detection
says `"down"` (a trained class) and the confidence `0.35 < 0.4`, the
engine returns `("down", 0.5)` — the heuristic's direction, not the
model's. -/
theorem c8_counterexample :
    handDetectMulti [3 / 10, 7 / 20] ["down", "up"] (some "down") =
      some ("down", 1 / 2) ∧
    ["down", "up"].getD (idxOfMax [3 / 10, 7 / 20]) "" = "up" ∧
    ("down" : String) ≠ "up" := by
  have hidx : idxOfMax [3 / 10, 7 / 20] = 1 := by
    norm_num [idxOfMax, listMaxQ, List.indexOf, List.findIdx, List.findIdx.go,
      Bool.cond_eq_ite, beq_iff_eq]
  refine ⟨?_, by rw [hidx]; decide, by decide⟩
  norm_num [handDetectMulti, hidx]
  decide

/-- C8 (amended): a label returned by the hand-direction multi-class
path is the model's own argmax label with the model's confidence,
*except* in one case: when the geometric detection (passed in as
`actualDirection`) names a trained class and the model's confidence is
below `0.4`, the engine may return the geometric direction with a
fabricated confidence of `0.5`.  So every returned label is either the
classifier's prediction or the geometric heuristic's output — the
engine is not restricted to the former. -/
theorem c8_prediction_provenance (probs : List ℚ) (trainedLabels : List String)
    (actualDirection : Option String) (d : String) (c : ℚ)
    (heq : handDetectMulti probs trainedLabels actualDirection = some (d, c)) :
    (d = trainedLabels.getD (idxOfMax probs) "" ∧
      c = (probs.get? (idxOfMax probs)).getD 0) ∨
    (actualDirection = some d ∧ c = 1 / 2 ∧
      (probs.get? (idxOfMax probs)).getD 0 < 2 / 5) := by
  unfold handDetectMulti at heq
  by_cases h : idxOfMax probs < trainedLabels.length
  · rw [dif_pos h] at heq
    have hget : trainedLabels.get ⟨idxOfMax probs, h⟩ =
        trainedLabels.getD (idxOfMax probs) "" := by
      rw [List.getD_eq_get?, List.get?_eq_get h]
      rfl
    dsimp only at heq
    split_ifs at heq with h1 h2 h3 h4 h5 h6 h7 h8
    · rw [Option.some.injEq, Prod.mk.injEq] at heq
      exact Or.inl ⟨heq.1.symm.trans hget, heq.2.symm⟩
    · rw [Option.some.injEq, Prod.mk.injEq] at heq
      obtain ⟨dd, hdd, hmem⟩ := h4
      refine Or.inr ⟨?_, heq.2.symm, h6⟩
      rw [hdd] at heq ⊢
      simp only [Option.getD_some] at heq
      rw [heq.1]
    · rw [Option.some.injEq, Prod.mk.injEq] at heq
      exact Or.inl ⟨heq.1.symm.trans hget, heq.2.symm⟩
    · rw [Option.some.injEq, Prod.mk.injEq] at heq
      exact Or.inl ⟨heq.1.symm.trans hget, heq.2.symm⟩
    · rw [Option.some.injEq, Prod.mk.injEq] at heq
      exact Or.inl ⟨heq.1.symm.trans hget, heq.2.symm⟩
  · rw [dif_neg h] at heq
    exact absurd heq (by simp)

/-- C8 (witness): the provenance statement applied to a concrete
accepting run — probabilities `[0.1, 0.7]`, geometric detection
agreeing with the model's `"up"`. -/
theorem c8_prediction_provenance_witness :
    handDetectMulti [1 / 10, 7 / 10] ["down", "up"] (some "up") =
      some ("up", 7 / 10) ∧
    ((("up" : String) = ["down", "up"].getD (idxOfMax [1 / 10, 7 / 10]) "" ∧
      (7 / 10 : ℚ) = (([1 / 10, 7 / 10] : List ℚ).get?
        (idxOfMax [1 / 10, 7 / 10])).getD 0) ∨
    ((some "up" : Option String) = some "up" ∧ (7 / 10 : ℚ) = 1 / 2 ∧
      (([1 / 10, 7 / 10] : List ℚ).get? (idxOfMax [1 / 10, 7 / 10])).getD 0 <
        2 / 5)) := by
  have hidx : idxOfMax [1 / 10, 7 / 10] = 1 := by
    norm_num [idxOfMax, listMaxQ, List.indexOf, List.findIdx, List.findIdx.go,
      Bool.cond_eq_ite, beq_iff_eq]
  have heval : handDetectMulti [1 / 10, 7 / 10] ["down", "up"] (some "up") =
      some ("up", 7 / 10) := by
    norm_num [handDetectMulti, hidx]
  exact ⟨heval, c8_prediction_provenance [1 / 10, 7 / 10] ["down", "up"]
    (some "up") "up" (7 / 10) heval⟩

/-! ## C10 — `detectDirection`: null exactly below the extension
threshold, four-sector coverage -/

lemma atan2_mem_Ioc (y x : ℝ) : -Real.pi < atan2 y x ∧ atan2 y x ≤ Real.pi :=
  ⟨Complex.neg_pi_lt_arg _, Complex.arg_le_pi _⟩

/-- The normalized angle `(atan2 → degrees → +360 if negative)` always
lands in `[0, 360)`. -/
lemma normAngle_bounds (y x : ℝ) :
    0 ≤ (if atan2 y x * (180 / Real.pi) < 0 then atan2 y x * (180 / Real.pi) + 360
         else atan2 y x * (180 / Real.pi)) ∧
    (if atan2 y x * (180 / Real.pi) < 0 then atan2 y x * (180 / Real.pi) + 360
     else atan2 y x * (180 / Real.pi)) < 360 := by
  obtain ⟨h1, h2⟩ := atan2_mem_Ioc y x
  have hpi : (0 : ℝ) < Real.pi := Real.pi_pos
  have hub : atan2 y x * (180 / Real.pi) ≤ 180 := by
    have h3 : atan2 y x * (180 / Real.pi) ≤ Real.pi * (180 / Real.pi) :=
      mul_le_mul_of_nonneg_right h2 (by positivity)
    have h4 : Real.pi * (180 / Real.pi) = 180 := by
      rw [mul_comm]
      exact div_mul_cancel₀ 180 (ne_of_gt hpi)
    linarith
  have hlb : -(180 : ℝ) < atan2 y x * (180 / Real.pi) := by
    have h3 : -Real.pi * (180 / Real.pi) < atan2 y x * (180 / Real.pi) :=
      mul_lt_mul_of_pos_right h1 (by positivity)
    have h4 : -Real.pi * (180 / Real.pi) = -180 := by
      rw [neg_mul, mul_comm, div_mul_cancel₀ 180 (ne_of_gt hpi)]
    linarith
  constructor
  · split_ifs with h <;> linarith
  · split_ifs with h <;> linarith

/-- The four 90-degree sector tests of `detectDirection` cover all of
`[0, 360)`: the trailing `return null` is unreachable, and the value is
one of the four direction strings. -/
lemma dir_chain (x : ℝ) (h0 : 0 ≤ x) (h1 : x < 360) :
    ((if (0 ≤ x ∧ x < 45) ∨ (315 ≤ x ∧ x ≤ 360) then some "right"
      else if 45 ≤ x ∧ x < 135 then some "down"
      else if 135 ≤ x ∧ x < 225 then some "left"
      else if 225 ≤ x ∧ x < 315 then some "up"
      else (none : Option String)) ≠ none) ∧
    ∃ d, (if (0 ≤ x ∧ x < 45) ∨ (315 ≤ x ∧ x ≤ 360) then some "right"
      else if 45 ≤ x ∧ x < 135 then some "down"
      else if 135 ≤ x ∧ x < 225 then some "left"
      else if 225 ≤ x ∧ x < 315 then some "up"
      else (none : Option String)) = some d ∧
      (d = "right" ∨ d = "down" ∨ d = "left" ∨ d = "up") := by
  split_ifs with ha hb hc hd
  · exact ⟨by simp, "right", rfl, Or.inl rfl⟩
  · exact ⟨by simp, "down", rfl, Or.inr (Or.inl rfl)⟩
  · exact ⟨by simp, "left", rfl, Or.inr (Or.inr (Or.inl rfl))⟩
  · exact ⟨by simp, "up", rfl, Or.inr (Or.inr (Or.inr rfl))⟩
  · exfalso
    push_neg at ha hb hc hd
    have a1 : 45 ≤ x := ha.1 h0
    have a2 : 135 ≤ x := hb a1
    have a3 : 225 ≤ x := hc a2
    have a4 : 315 ≤ x := hd a3
    have a5 : 360 < x := ha.2 a4
    linarith

/-- C10: `detectDirection` returns `null` exactly when the MCP→tip
distance is below `0.08`; otherwise it returns one of `'up'`, `'down'`,
`'left'`, `'right'` — the trailing fallback `return null` after the four
angle-range tests is unreachable, because the normalized angle lies in
`[0, 360)` and the four 90-degree sectors cover that interval. -/
theorem c10_detect_direction (landmarks : ℕ → Pt) :
    (detectDirection landmarks = none ↔ fingerDist landmarks < 0.08) ∧
    (detectDirection landmarks = none ∨
      ∃ d, detectDirection landmarks = some d ∧
        (d = "right" ∨ d = "down" ∨ d = "left" ∨ d = "up")) := by
  unfold detectDirection
  dsimp only
  by_cases hd : fingerDist landmarks < 0.08
  · rw [if_pos hd]
    exact ⟨iff_of_true rfl hd, Or.inl rfl⟩
  · rw [if_neg hd]
    have hb := normAngle_bounds
      ((landmarks INDEX_FINGER_TIP).y - (landmarks INDEX_FINGER_MCP).y)
      (-((landmarks INDEX_FINGER_TIP).x - (landmarks INDEX_FINGER_MCP).x))
    have hch := dir_chain _ hb.1 hb.2
    exact ⟨iff_of_false hch.1 hd, Or.inr hch.2⟩

/-- C10 (witness): with all landmarks at the same point the MCP→tip
distance is `0 < 0.08`, and `detectDirection` returns `null`. -/
theorem c10_detect_direction_witness :
    fingerDist (fun _ => ⟨0, 0⟩) < 0.08 ∧
    detectDirection (fun _ => ⟨0, 0⟩) = none := by
  have h0 : fingerDist (fun _ => ⟨0, 0⟩) < 0.08 := by
    unfold fingerDist
    dsimp only
    rw [show ((0 : ℝ) - 0) * ((0 : ℝ) - 0) + ((0 : ℝ) - 0) * ((0 : ℝ) - 0) = 0 by
      norm_num, Real.sqrt_zero]
    norm_num
  exact ⟨h0, (c10_detect_direction (fun _ => ⟨0, 0⟩)).1.mpr h0⟩

end HandAnimal
